import Mathlib

/-!
Verification development for the orix ANG plugin and the masked crystal-map
property store.

The definitions below are a shallow embedding of
`orix/crystal_map/crystal_map_properties.py` and `orix/io/plugins/ang.py`.
Python/NumPy numbers are modelled as rationals (`ℚ`); NumPy dtypes are
modelled by the two element types that occur in this code (`int`, `float`),
with `astype`/assignment casts modelled as truncation toward zero.
Fallible Python code (exceptions such as `IndexError`, `KeyError`,
`ValueError`) is modelled with `Option`/`Except`.
-/

attribute [local semireducible] Rat.mul Rat.add Rat.inv Rat.sub

namespace Orix

/-- Truncation of a rational toward zero, as performed by Python `int(x)` and
by NumPy casts from a floating dtype to an integer dtype
(`Int.div` is T-division, which rounds toward zero; the denominator of a
`ℚ` is positive). -/
def ratTrunc (q : ℚ) : Int :=
  Int.tdiv q.num (q.den : Int)

/-- Floor of a rational (`Int.fdiv` is F-division, which rounds down;
the denominator of a `ℚ` is positive). Models Python `x // 1`. -/
def ratFloor (q : ℚ) : Int :=
  Int.fdiv q.num (q.den : Int)

/-- The two NumPy element dtypes occurring in this code base. -/
inductive Dtype where
  | int
  | float
deriving DecidableEq, Repr

/-- Casting a number to a dtype: integer dtypes truncate toward zero,
floating dtypes keep the value. -/
def castVal : Dtype → ℚ → ℚ
  | Dtype.int, q => (ratTrunc q : ℚ)
  | Dtype.float, q => q

/-- A Python number together with its runtime type (`type(value)`). -/
structure PyNum where
  ty : Dtype
  val : ℚ
deriving DecidableEq, Repr

/-- A NumPy 1-D array: a dtype and its elements. -/
structure PArray where
  dtype : Dtype
  data : List ℚ
deriving DecidableEq, Repr

/-- `ndarray.astype(t)`: cast every element to the new dtype. -/
def PArray.astype (a : PArray) (t : Dtype) : PArray :=
  PArray.mk t (a.data.map (castVal t))

/-- The value passed to `CrystalMapProperties.__setitem__`: either a scalar
(non-iterable) or a sequence of numbers. -/
inductive PyValue where
  | scalar (v : PyNum)
  | arr (vs : List PyNum)
deriving DecidableEq, Repr

/-- The element type the source derives from the input: `type(value[0])` for
an iterable (IndexError, hence `none`, on an empty one), `type(value)` for a
scalar. -/
def pyValueType : PyValue → Option Dtype
  | PyValue.scalar v => some v.ty
  | PyValue.arr vs => (vs.head?).map PyNum.ty

/-- Association-list lookup, mirroring Python `dict` access (keys are unique
by construction, so first match is the match). -/
def lookupA : List (String × PArray) → String → Option PArray
  | [], _ => none
  | p :: ps, k => if p.1 = k then some p.2 else lookupA ps k

/-- Association-list store: replace an existing binding in place or append a
new one, mirroring `dict.__setitem__`. -/
def updateA : List (String × PArray) → String → PArray → List (String × PArray)
  | [], k, a => [(k, a)]
  | p :: ps, k, a => if p.1 = k then (k, a) :: ps else p :: updateA ps k a

/-- NumPy fancy-index assignment `data[ids] = vals` for equal-length index
and value sequences: all indices are bounds-checked (IndexError otherwise,
modelled as `none`), then the positions are written in order.
Broadcasting of other value shapes is not used by the embedded code paths
and is not modelled. -/
def assignIdx (data : List ℚ) (ids : List Nat) (vals : List ℚ) : Option (List ℚ) :=
  if ids.all (fun i => decide (i < data.length)) && ids.length == vals.length then
    some ((ids.zip vals).foldl (fun d p => d.set p.1 p.2) data)
  else
    none

/-- NumPy boolean-mask selection `data[mask]` (equal lengths assumed by the
caller; `getitem` checks them). -/
def maskSelect : List ℚ → List Bool → List ℚ
  | [], _ => []
  | _ :: _, [] => []
  | q :: qs, b :: bs => if b then q :: maskSelect qs bs else maskSelect qs bs

/-- The ascending list of positions at which a mask is `true` — the ids of
the currently active points. -/
def activeIds : List Bool → List Nat
  | [] => []
  | b :: bs =>
    if b then 0 :: (activeIds bs).map Nat.succ else (activeIds bs).map Nat.succ

/-- `orix.crystal_map.crystal_map_properties.CrystalMapProperties`: a dict of
named property arrays plus the point-id array and the in-data mask. -/
structure CrystalMapProperties where
  props : List (String × PArray)
  id : List Nat
  is_in_data : List Bool
deriving DecidableEq, Repr

/-- `CrystalMapProperties.__init__`: `None` dictionary means empty; `None`
mask means all points in the data (`np.ones(id.size, dtype=bool)`). -/
def CrystalMapProperties.create (dictionary : Option (List (String × PArray)))
    (id : List Nat) (is_in_data : Option (List Bool)) : CrystalMapProperties :=
  CrystalMapProperties.mk (dictionary.getD []) id
    (is_in_data.getD (List.replicate id.length true))

/-- The `self.setdefault(key, np.zeros(self.is_in_data.size))` line of
`__setitem__`: the existing backing array for `key`, or a fresh full-size
float array of zeros. -/
def setdefaultArray (m : CrystalMapProperties) (key : String) : PArray :=
  match lookupA m.props key with
  | some a => a
  | none => PArray.mk Dtype.float (List.replicate m.is_in_data.length 0)

/-- The element values that `array[self.id] = value` writes, already cast to
the array's dtype: a scalar broadcasts over all of `self.id`, a sequence is
written element by element. -/
def setValues (m : CrystalMapProperties) (vt : Dtype) : PyValue → List ℚ
  | PyValue.scalar v => List.replicate m.id.length (castVal vt v.val)
  | PyValue.arr vs => vs.map (fun x => castVal vt x.val)

/-- `CrystalMapProperties.__setitem__`: fetch or create the backing array
(`setdefaultArray`), coerce it to the element type of the supplied value
(`astype`), then write the value at the positions given by `self.id` and
store the array under `key`. -/
def setitem (m : CrystalMapProperties) (key : String) (value : PyValue) :
    Option CrystalMapProperties :=
  match pyValueType value with
  | none => none
  | some vt =>
    match assignIdx ((setdefaultArray m key).astype vt).data m.id
        (setValues m vt value) with
    | none => none
    | some d =>
      some (CrystalMapProperties.mk (updateA m.props key (PArray.mk vt d)) m.id m.is_in_data)

/-- `CrystalMapProperties.__getitem__`: return the backing array restricted
to the positions where the mask is true (`array[self.is_in_data]`).
`none` models both `KeyError` for an unset key and the NumPy shape error for
a mask whose length differs from the array's. -/
def getitem (m : CrystalMapProperties) (item : String) : Option (List ℚ) :=
  match lookupA m.props item with
  | none => none
  | some a =>
    if a.data.length == m.is_in_data.length then
      some (maskSelect a.data m.is_in_data)
    else
      none

end Orix

namespace Orix

theorem length_foldl_set (pairs : List (Nat × ℚ)) (d : List ℚ) :
    (pairs.foldl (fun d p => d.set p.1 p.2) d).length = d.length := by
  induction pairs generalizing d with
  | nil => rfl
  | cons q qs ih => simp [List.foldl_cons, ih, List.length_set]

theorem foldl_set_shift (pairs : List (Nat × ℚ)) (a : ℚ) (d : List ℚ) :
    (pairs.map (Prod.map Nat.succ id)).foldl (fun d p => d.set p.1 p.2) (a :: d) =
      a :: pairs.foldl (fun d p => d.set p.1 p.2) d := by
  induction pairs generalizing d with
  | nil => rfl
  | cons q qs ih => simp [List.foldl_cons, Prod.map, List.set_cons_succ, ih]

theorem activeIds_lt (mask : List Bool) : ∀ i ∈ activeIds mask, i < mask.length := by
  induction mask with
  | nil => intro i h; simp [activeIds] at h
  | cons b bs ih =>
    intro i h
    by_cases hb : b
    · simp [activeIds, hb] at h
      rcases h with h | ⟨j, hj, rfl⟩
      · simp [h]
      · have := ih j hj
        simp
        omega
    · simp [activeIds, hb] at h
      rcases h with ⟨j, hj, rfl⟩
      have := ih j hj
      simp
      omega

theorem maskSelect_assign (mask : List Bool) (data : List ℚ) (vals : List ℚ)
    (hd : data.length = mask.length)
    (hv : vals.length = (activeIds mask).length) :
    maskSelect (((activeIds mask).zip vals).foldl (fun d p => d.set p.1 p.2) data) mask
      = vals := by
  induction mask generalizing data vals with
  | nil =>
    simp [activeIds] at hv ⊢
    subst hv
    cases data with
    | nil => rfl
    | cons q qs => rfl
  | cons b bs ih =>
    cases data with
    | nil => simp at hd
    | cons q qs =>
      have hd' : qs.length = bs.length := by simpa using hd
      cases b with
      | true =>
        cases vals with
        | nil => simp [activeIds] at hv
        | cons v vs =>
          have hv' : vs.length = (activeIds bs).length := by
            simp [activeIds] at hv; omega
          rw [show activeIds (true :: bs) = 0 :: (activeIds bs).map Nat.succ from rfl]
          simp only [List.zip_cons_cons, List.foldl_cons, List.set_cons_zero]
          rw [List.zip_map_left, foldl_set_shift]
          show (if true = true then _ :: _ else _) = _
          rw [if_pos rfl]
          rw [ih qs vs hd' hv']
      | false =>
        rw [show activeIds (false :: bs) = (activeIds bs).map Nat.succ from rfl]
        rw [List.zip_map_left, foldl_set_shift]
        show (if false = true then _ :: _ else maskSelect _ bs) = _
        rw [if_neg (by simp)]
        exact ih qs vals hd' (by simpa [activeIds] using hv)

theorem foldl_set_not_mem (ids : List Nat) (vals : List ℚ) (d : List ℚ) (p : Nat)
    (hp : p ∉ ids) :
    ((ids.zip vals).foldl (fun d q => d.set q.1 q.2) d)[p]? = d[p]? := by
  induction ids generalizing vals d with
  | nil => rfl
  | cons i ids ih =>
    cases vals with
    | nil => rfl
    | cons v vs =>
      simp only [List.zip_cons_cons, List.foldl_cons]
      rw [ih vs _ (fun h => hp (List.mem_cons_of_mem _ h))]
      have hpi : i ≠ p := by
        intro h
        exact hp (by simp [h])
      exact List.getElem?_set_ne hpi

theorem lookupA_updateA (props : List (String × PArray)) (k : String) (a : PArray) :
    lookupA (updateA props k a) k = some a := by
  induction props with
  | nil => simp [updateA, lookupA]
  | cons p ps ih =>
    by_cases h : p.1 = k
    · simp [updateA, h, lookupA]
    · simp [updateA, h, lookupA, ih]

theorem setdefault_length (m : CrystalMapProperties) (key : String)
    (harr : ∀ a, lookupA m.props key = some a → a.data.length = m.is_in_data.length) :
    (setdefaultArray m key).data.length = m.is_in_data.length := by
  unfold setdefaultArray
  cases h : lookupA m.props key with
  | none => simp
  | some a => exact harr a h

/-- C1 (amended): on a store whose point-id array lists the active points of
the mask in ascending order, `set(key, v)` with one entry per active point
followed by `get(key)` returns exactly the values of `v`, provided `v` is
non-empty and its entries are unchanged by coercion to the element type of
its first entry (as every homogeneous NumPy value array is). -/
theorem set_get_active_roundtrip (m : CrystalMapProperties) (key : String)
    (vs : List PyNum) (v0 : PyNum)
    (hid : m.id = activeIds m.is_in_data)
    (hlen : vs.length = m.id.length)
    (h0 : vs.head? = some v0)
    (hhom : ∀ x ∈ vs, castVal v0.ty x.val = x.val)
    (harr : ∀ a, lookupA m.props key = some a → a.data.length = m.is_in_data.length) :
    ∃ m2, setitem m key (PyValue.arr vs) = some m2 ∧
      getitem m2 key = some (vs.map PyNum.val) := by
  have hsd := setdefault_length m key harr
  have hvt : pyValueType (PyValue.arr vs) = some v0.ty := by
    simp [pyValueType, h0]
  have harr2len : ((setdefaultArray m key).astype v0.ty).data.length
      = m.is_in_data.length := by
    simp [PArray.astype, hsd]
  have hvalseq : vs.map (fun x => castVal v0.ty x.val) = vs.map PyNum.val :=
    List.map_congr_left hhom
  have hguard : (m.id.all
        (fun i => decide (i < ((setdefaultArray m key).astype v0.ty).data.length)) &&
        (m.id.length == (vs.map (fun x => castVal v0.ty x.val)).length)) = true := by
    rw [Bool.and_eq_true]
    constructor
    · rw [List.all_eq_true]
      intro i hi
      rw [decide_eq_true_iff, harr2len]
      exact activeIds_lt m.is_in_data i (hid ▸ hi)
    · simp [hlen]
  have hassign : assignIdx ((setdefaultArray m key).astype v0.ty).data m.id
        (vs.map (fun x => castVal v0.ty x.val)) =
      some ((m.id.zip (vs.map (fun x => castVal v0.ty x.val))).foldl
        (fun d p => d.set p.1 p.2) ((setdefaultArray m key).astype v0.ty).data) := by
    unfold assignIdx
    rw [if_pos hguard]
  refine ⟨CrystalMapProperties.mk
      (updateA m.props key (PArray.mk v0.ty
        ((m.id.zip (vs.map (fun x => castVal v0.ty x.val))).foldl
          (fun d p => d.set p.1 p.2) ((setdefaultArray m key).astype v0.ty).data)))
      m.id m.is_in_data, ?_, ?_⟩
  · simp only [setitem, hvt, setValues, hassign]
  · have hdlen : ((m.id.zip (vs.map (fun x => castVal v0.ty x.val))).foldl
        (fun d p => d.set p.1 p.2) ((setdefaultArray m key).astype v0.ty).data).length
        = m.is_in_data.length := by
      rw [length_foldl_set]
      exact harr2len
    simp only [getitem, lookupA_updateA]
    rw [if_pos (by simpa using hdlen)]
    rw [show (CrystalMapProperties.mk
      (updateA m.props key (PArray.mk v0.ty
        ((m.id.zip (vs.map (fun x => castVal v0.ty x.val))).foldl
          (fun d p => d.set p.1 p.2) ((setdefaultArray m key).astype v0.ty).data)))
      m.id m.is_in_data).is_in_data = m.is_in_data from rfl]
    rw [hid]
    rw [maskSelect_assign m.is_in_data _ _ (by simpa using harr2len)
      (by rw [List.length_map, hlen, hid])]
    rw [hvalseq]

/-- C1 witness: the spec's concrete scenario. A store with N = 5,
mask `[T,T,F,T,T]`, active ids `[0,1,3,4]`; `set("iq",[1,2,3,4])` then
`get("iq")` returns `[1,2,3,4]`. -/
theorem set_get_active_roundtrip_witness :
    ([0, 1, 3, 4] = activeIds [true, true, false, true, true]) ∧
    (∃ m2, setitem (CrystalMapProperties.mk [] [0, 1, 3, 4]
          [true, true, false, true, true]) "iq"
        (PyValue.arr [PyNum.mk Dtype.int 1, PyNum.mk Dtype.int 2,
          PyNum.mk Dtype.int 3, PyNum.mk Dtype.int 4]) = some m2 ∧
      getitem m2 "iq" = some [1, 2, 3, 4]) := by
  refine ⟨by decide, ?_⟩
  have h := set_get_active_roundtrip
    (CrystalMapProperties.mk [] [0, 1, 3, 4] [true, true, false, true, true]) "iq"
    [PyNum.mk Dtype.int 1, PyNum.mk Dtype.int 2, PyNum.mk Dtype.int 3,
      PyNum.mk Dtype.int 4] (PyNum.mk Dtype.int 1)
    (by decide) (by decide) rfl (by decide)
    (fun a ha => Option.noConfusion ha)
  simpa using h

/-- C1 counterexample: the claim quantifies over arbitrary per-point value
sequences, but `__setitem__` casts the whole value to the type of its first
entry, so setting `[1, 2.5]` (first entry an int) stores `[1, 2]` and
`get` does not return the values that were set. -/
theorem set_get_active_roundtrip_cex :
    ((setitem (CrystalMapProperties.mk [] [0, 1] [true, true]) "iq"
        (PyValue.arr [PyNum.mk Dtype.int 1, PyNum.mk Dtype.float (5/2)])).bind
      (fun m2 => getitem m2 "iq")) = some [(1 : ℚ), 2] ∧
    ((some [(1 : ℚ), 2] : Option (List ℚ)) ≠ some [(1 : ℚ), 5/2]) := by decide

theorem assign_frame (m : CrystalMapProperties) (key : String) (vt : Dtype)
    (vals : List ℚ) (d : List ℚ)
    (hassign : assignIdx ((setdefaultArray m key).astype vt).data m.id vals = some d)
    (p : Nat) (hp : p ∉ m.id) :
    d[p]? = ((setdefaultArray m key).data[p]?).map (castVal vt) := by
  unfold assignIdx at hassign
  by_cases hc : (m.id.all
      (fun i => decide (i < ((setdefaultArray m key).astype vt).data.length)) &&
      m.id.length == vals.length) = true
  · rw [if_pos hc] at hassign
    obtain rfl := Option.some.inj hassign
    rw [foldl_set_not_mem m.id vals _ p hp]
    simp [PArray.astype]
  · rw [if_neg hc] at hassign
    exact absurd hassign (by simp)

/-- C2 (amended): a write through `__setitem__` touches only the positions
of the point ids held by the store (the active point ids); every other
position of the backing array keeps its previous value coerced to the
element type of the written values — identical whenever the element type is
unchanged, and the neutral default zero when the backing array was just
created — because the whole array is cast with `astype` before the write. -/
theorem setitem_frame_coerce (m : CrystalMapProperties) (key : String)
    (value : PyValue) (vt : Dtype) (m2 : CrystalMapProperties)
    (hid : m.id = activeIds m.is_in_data)
    (hvt : pyValueType value = some vt)
    (hset : setitem m key value = some m2)
    (p : Nat) (hp : p ∉ m.id) :
    ∃ a2, lookupA m2.props key = some a2 ∧
      a2.data[p]? = ((setdefaultArray m key).data[p]?).map (castVal vt) := by
  unfold setitem at hset
  simp only [hvt] at hset
  cases hassign : assignIdx ((setdefaultArray m key).astype vt).data m.id
      (setValues m vt value) with
  | none =>
    rw [hassign] at hset
    exact absurd hset (by simp)
  | some d =>
    rw [hassign] at hset
    obtain rfl := Option.some.inj hset
    refine ⟨PArray.mk vt d, ?_, ?_⟩
    · exact lookupA_updateA m.props key (PArray.mk vt d)
    · exact assign_frame m key vt _ d hassign p hp

/-- C2 witness: in the concrete coercion scenario below (float array
`[3/2, 5/2, 7/2, 0, 0]`, active ids `[0, 1]`, int values `[7, 8]` written),
position 2 — outside the active ids — ends up holding the coerced previous
value. -/
theorem setitem_frame_coerce_witness :
    ((2 : Nat) ∉ ([0, 1] : List Nat)) ∧
    (∃ a2, lookupA (CrystalMapProperties.mk
        [("p", PArray.mk Dtype.int [7, 8, 3, 0, 0])] [0, 1]
        [true, true, false, false, false]).props "p" = some a2 ∧
      a2.data[2]? = (((setdefaultArray (CrystalMapProperties.mk
        [("p", PArray.mk Dtype.float [3/2, 5/2, 7/2, 0, 0])] [0, 1]
        [true, true, false, false, false]) "p").data)[2]?).map (castVal Dtype.int)) :=
  ⟨by decide,
    setitem_frame_coerce
      (CrystalMapProperties.mk [("p", PArray.mk Dtype.float [3/2, 5/2, 7/2, 0, 0])]
        [0, 1] [true, true, false, false, false]) "p"
      (PyValue.arr [PyNum.mk Dtype.int 7, PyNum.mk Dtype.int 8]) Dtype.int
      (CrystalMapProperties.mk [("p", PArray.mk Dtype.int [7, 8, 3, 0, 0])]
        [0, 1] [true, true, false, false, false])
      (by decide) rfl (by decide) 2 (by decide)⟩

/-- C2 counterexample: with a pre-existing float backing array
`[3/2, 5/2, 7/2, 0, 0]` and an int-typed write `[7, 8]` at active ids
`[0, 1]`, position 2 changes from `7/2` to `3` — neither its previous value
nor the neutral default zero — so the claim as stated fails. -/
theorem setitem_frame_coerce_cex :
    (setitem (CrystalMapProperties.mk
        [("p", PArray.mk Dtype.float [3/2, 5/2, 7/2, 0, 0])] [0, 1]
        [true, true, false, false, false]) "p"
      (PyValue.arr [PyNum.mk Dtype.int 7, PyNum.mk Dtype.int 8])) =
      some (CrystalMapProperties.mk
        [("p", PArray.mk Dtype.int [7, 8, 3, 0, 0])] [0, 1]
        [true, true, false, false, false]) ∧
    ((3 : ℚ) ≠ 7/2 ∧ (3 : ℚ) ≠ 0) := by decide

/-- Prefix test on character lists (`isPrefixL sub s` holds when `sub` is a
prefix of `s`). -/
def isPrefixL : List Char → List Char → Bool
  | [], _ => true
  | _ :: _, [] => false
  | a :: as, b :: bs => a = b && isPrefixL as bs

/-- Substring occurrence test on character lists. -/
def containsSub (sub : List Char) : List Char → Bool
  | [] => isPrefixL sub []
  | c :: cs => isPrefixL sub (c :: cs) || containsSub sub cs

/-- Python `sub in line` on strings. -/
def strContains (line sub : String) : Bool :=
  containsSub sub.toList line.toList

/-- Decimal digit characters. -/
def digitChar : Nat → Char
  | 0 => '0'
  | 1 => '1'
  | 2 => '2'
  | 3 => '3'
  | 4 => '4'
  | 5 => '5'
  | 6 => '6'
  | 7 => '7'
  | 8 => '8'
  | 9 => '9'
  | _ => '*'

/-- Decimal digits of `n`, most significant first (`fuel` bounds the
recursion; `n + 1` is always enough). -/
def natToDigits (fuel n : Nat) : List Char :=
  match fuel with
  | 0 => []
  | f + 1 =>
    if n < 10 then [digitChar n]
    else natToDigits f (n / 10) ++ [digitChar (n % 10)]

/-- Python `str` on a natural number. -/
def natToStr (n : Nat) : String :=
  String.mk (natToDigits (n + 1) n)

/-- Python `str` on an integer. -/
def intToStr : Int → String
  | Int.ofNat n => natToStr n
  | Int.negSucc n => "-" ++ natToStr (n + 1)

/-- The vendor footprint table of `_get_vendor_columns`, in Python dict
insertion order. -/
def vendorFootprint : List (String × String) :=
  [("emsoft", "EMsoft"), ("astar", "ACOM")]

/-- The vendor-detection loop of `_get_vendor_columns`: start from the
default `"tsl"`; for each footprint in table order, if some header line
contains it, set the vendor to that name (the inner `break` only stops the
line scan, so a later footprint overwrites an earlier hit). -/
def detectVendor (header : List String) : String :=
  vendorFootprint.foldl
    (fun v nf => if header.any (fun line => strContains line nf.2) then nf.1 else v)
    "tsl"

/-- The `"unknown"` (fallback) column schema. -/
def unknownColumns : List String :=
  ["euler1", "euler2", "euler3", "x", "y", "unknown1", "unknown2", "phase_id"]

/-- The EDAX TSL column schema (14 columns). -/
def tslColumns : List String :=
  ["euler1", "euler2", "euler3", "x", "y", "iq", "ci", "phase_id",
   "unknown1", "fit", "unknown2", "unknown3", "unknown4", "unknown5"]

/-- The EMsoft column schema (8 columns). -/
def emsoftColumns : List String :=
  ["euler1", "euler2", "euler3", "x", "y", "iq", "dp", "phase_id"]

/-- The NanoMegas ASTAR column schema (9 columns). -/
def astarColumns : List String :=
  ["euler1", "euler2", "euler3", "x", "y", "ind", "rel", "phase_id", "relx100"]

/-- The `column_names` dict of `_get_vendor_columns`, as a lookup over the
four vendor keys. -/
def columnsFor (vendor : String) : List String :=
  if vendor = "unknown" then unknownColumns
  else if vendor = "tsl" then tslColumns
  else if vendor = "emsoft" then emsoftColumns
  else astarColumns

/-- `_get_vendor_columns`: detect the vendor, then return its schema if the
file's column count matches its expected length; otherwise fall back to the
`"unknown"` schema, appended with `"unknown" + str(i + 3)` for each column of
the file beyond the 8 fallback names. -/
def getVendorColumns (header : List String) (nColsFile : Nat) : String × List String :=
  let vendor := detectVendor header
  if nColsFile ≠ (columnsFor vendor).length then
    ("unknown", unknownColumns ++
      (List.range (nColsFile - unknownColumns.length)).map
        (fun i => "unknown" ++ natToStr (i + 3)))
  else
    (vendor, columnsFor vendor)

/-- C5 (amended): vendor detection returns `"astar"` if some header line
contains `"ACOM"`; otherwise `"emsoft"` if some line contains `"EMsoft"`;
otherwise the default `"tsl"`. When both footprints are present the later
footprint in the fixed detection order (ACOM) wins, because the `break`
only leaves the inner line loop. -/
theorem detectVendor_characterization (header : List String) :
    detectVendor header =
      if header.any (fun l => strContains l "ACOM") then "astar"
      else if header.any (fun l => strContains l "EMsoft") then "emsoft"
      else "tsl" := rfl

/-- C5 counterexample: a header whose first line contains `"EMsoft"` and
whose second line contains `"ACOM"`. The first footprint match is EMsoft's,
but the detector returns `"astar"`, so "first match wins" (and
"returns emsoft if some line contains EMsoft") fails. -/
theorem detectVendor_cex :
    detectVendor ["# EMsoft v5.0", "# ACOM data"] = "astar" ∧
    ("astar" : String) ≠ "emsoft" := by decide

/-- C4 (amended): whenever the file's column count differs from the detected
vendor's expected count, the resolver returns the fallback schema extended
with `"unknown" ++ str(k + 2)` for the k-th excess column; the returned
length is `max 8 n` — equal to the file's column count only when the file
has at least 8 columns, since the 8 fallback names are never truncated. -/
theorem getVendorColumns_fallback (header : List String) (n : Nat)
    (h : n ≠ (columnsFor (detectVendor header)).length) :
    (getVendorColumns header n).2 =
      unknownColumns ++
        (List.range (n - 8)).map (fun i => "unknown" ++ natToStr (i + 3)) ∧
    ((getVendorColumns header n).2).length = max 8 n ∧
    ∀ k, k < n - 8 →
      ((getVendorColumns header n).2)[8 + k]? = some ("unknown" ++ natToStr (k + 3)) := by
  have hres : getVendorColumns header n = ("unknown", unknownColumns ++
      (List.range (n - 8)).map (fun i => "unknown" ++ natToStr (i + 3))) := by
    unfold getVendorColumns
    rw [if_pos h]
    rfl
  refine ⟨by rw [hres], ?_, ?_⟩
  · rw [hres]
    simp [unknownColumns]
    omega
  · intro k hk
    rw [hres]
    have h8 : (unknownColumns).length = 8 := by decide
    rw [List.getElem?_append_right (by omega)]
    rw [h8]
    simp only [Nat.add_sub_cancel_left, List.getElem?_map]
    rw [List.getElem?_range hk]
    rfl

/-- C4 witness: an empty header detects the default vendor (expected 14
columns); a file with 11 columns mismatches and yields the fallback schema
extended to 11 auto-named columns. -/
theorem getVendorColumns_fallback_witness :
    ((11 : Nat) ≠ (columnsFor (detectVendor [])).length) ∧
    ((getVendorColumns [] 11).2 =
      unknownColumns ++
        (List.range (11 - 8)).map (fun i => "unknown" ++ natToStr (i + 3)) ∧
    ((getVendorColumns [] 11).2).length = max 8 11 ∧
    ∀ k, k < 11 - 8 →
      ((getVendorColumns [] 11).2)[8 + k]? = some ("unknown" ++ natToStr (k + 3))) :=
  ⟨by decide, getVendorColumns_fallback [] 11 (by decide)⟩

/-- C4 counterexample: an empty header (default vendor, 14 expected columns)
with a 5-column file triggers the fallback, but the returned schema has its
8 fallback names — not 5 — so the returned length does not equal the file's
column count. -/
theorem getVendorColumns_cex :
    ((getVendorColumns [] 5).2).length = 8 ∧ (8 : Nat) ≠ 5 := by decide

/-- Space or tab, the separator class `[ \t]` of the header regexes. -/
def wsChar (c : Char) : Bool := c = ' ' || c = '\t'

/-- The class `[0-9 ]` (digits or space). -/
def digitSpaceChar (c : Char) : Bool := c.isDigit || c = ' '

/-- The class `[A-z0-9 ]`: code points from `A` to `z` (which include the
punctuation between `Z` and `a`), digits, or space. -/
def wordClassChar (c : Char) : Bool :=
  ('A' ≤ c && c ≤ 'z') || c.isDigit || c = ' '

/-- The class `[ \t+]` of the LatticeConstants pattern (the `+` is inside
the character class in the source regex). -/
def latticeSepChar (c : Char) : Bool := c = ' ' || c = '\t' || c = '+'

/-- Drop `lit` from the front of `s`, or fail if `s` does not start with
`lit`. -/
def dropPrefixL : List Char → List Char → Option (List Char)
  | [], s => some s
  | _ :: _, [] => none
  | a :: as, b :: bs => if a = b then dropPrefixL as bs else none

/-- One or more `cls` characters reachable after zero or more further `ws`
characters (the backtracking tail of `(ws+)(cls+)`). -/
def clsAfterWs (ws cls : Char → Bool) : List Char → Bool
  | [] => false
  | c :: rest => cls c || (ws c && clsAfterWs ws cls rest)

/-- `(ws+)(cls+)` matches a prefix of the input: at least one `ws`
character, then at least one `cls` character (possibly after more `ws`). -/
def wsThenCls (ws cls : Char → Bool) : List Char → Bool
  | [] => false
  | c :: rest => ws c && clsAfterWs ws cls rest

/-- `lit` followed by a match of `tc` at this exact position. -/
def litThen (lit : List Char) (tc : List Char → Bool) (s : List Char) : Bool :=
  match dropPrefixL lit s with
  | some r => tc r
  | none => false

/-- `re.search` existence semantics: the pattern `lit` + `tc` matches at
some position of the input. -/
def searchL (lit : List Char) (tc : List Char → Bool) : List Char → Bool
  | [] => litThen lit tc []
  | c :: cs => litThen lit tc (c :: cs) || searchL lit tc cs

/-- `re.search("# Phase([ \t]+)([0-9 ]+)", line)` as a Boolean. -/
def matchesId (line : String) : Bool :=
  searchL "# Phase".toList (wsThenCls wsChar digitSpaceChar) line.toList

/-- `re.search("# MaterialName([ \t]+)([A-z0-9 ]+)", line)` as a Boolean. -/
def matchesName (line : String) : Bool :=
  searchL "# MaterialName".toList (wsThenCls wsChar wordClassChar) line.toList

/-- `re.search("# Formula([ \t]+)([A-z0-9 ]+)", line)` as a Boolean. -/
def matchesFormula (line : String) : Bool :=
  searchL "# Formula".toList (wsThenCls wsChar wordClassChar) line.toList

/-- `re.search("# Symmetry([ \t]+)([A-z0-9 ]+)", line)` as a Boolean. -/
def matchesPointGroup (line : String) : Bool :=
  searchL "# Symmetry".toList (wsThenCls wsChar wordClassChar) line.toList

/-- `re.search("# LatticeConstants([ \t+])(.*)", line)` as a Boolean: the
literal followed by one `[ \t+]` character (`.*` always matches). -/
def matchesLattice (line : String) : Bool :=
  searchL "# LatticeConstants".toList
    (fun r => match r with | [] => false | c :: _ => latticeSepChar c) line.toList

/-- Python `line.lstrip("# ")`: drop leading `#` and space characters. -/
def lstripHashSpace (s : List Char) : List Char :=
  s.dropWhile (fun c => c = '#' || c = ' ')

/-- Python `line.rstrip(" ")`: drop trailing spaces. -/
def rstripSpace (s : List Char) : List Char :=
  (s.reverse.dropWhile (fun c => c = ' ')).reverse

/-- Maximal runs of non-separator characters (`cur` holds the current run,
reversed). Equals `re.split` on single separators followed by
`filter(None, ...)`. -/
def wordsByAux (sep : Char → Bool) : List Char → List Char → List (List Char)
  | [], cur => if cur.isEmpty then [] else [cur.reverse]
  | c :: cs, cur =>
    if sep c then
      if cur.isEmpty then wordsByAux sep cs []
      else cur.reverse :: wordsByAux sep cs []
    else wordsByAux sep cs (c :: cur)

/-- The token list
`list(filter(None, re.split("[ \t]", line.lstrip("# ").rstrip(" "))))`. -/
def tokensOf (line : String) : List String :=
  (wordsByAux wsChar (rstripSpace (lstripHashSpace line.toList)) []).map
    (fun l => String.mk l)

/-- Value of a digit string (most significant first). -/
def digitsVal (l : List Char) : Nat :=
  l.foldl (fun n c => 10 * n + (c.toNat - 48)) 0

/-- A non-empty all-digit string, or failure. -/
def parseNatDigits (l : List Char) : Option Nat :=
  if !l.isEmpty && l.all Char.isDigit then some (digitsVal l) else none

/-- Python `int(s)` on a whitespace-free token: optional sign then digits
(`ValueError`, hence `none`, otherwise; digit-group underscores are not
modelled). -/
def parseIntStr (s : String) : Option Int :=
  match s.toList with
  | '-' :: r => (parseNatDigits r).map (fun n => -(n : Int))
  | '+' :: r => (parseNatDigits r).map (fun n => (n : Int))
  | r => (parseNatDigits r).map (fun n => (n : Int))

/-- Unsigned decimal literal `digits [. digits]` with at least one digit,
as a rational. -/
def parseUFloatStr (l : List Char) : Option ℚ :=
  match l.dropWhile Char.isDigit with
  | [] =>
    if (l.takeWhile Char.isDigit).isEmpty then none
    else some ((digitsVal (l.takeWhile Char.isDigit) : ℚ))
  | '.' :: fp =>
    if fp.all Char.isDigit && !((l.takeWhile Char.isDigit).isEmpty && fp.isEmpty) then
      some ((digitsVal (l.takeWhile Char.isDigit) : ℚ) +
        (digitsVal fp : ℚ) / ((10 : ℚ) ^ fp.length))
    else none
  | _ => none

/-- Python `float(s)` on a whitespace-free token: optional sign then a plain
decimal literal (`ValueError`, hence `none`, otherwise; scientific notation
and `inf`/`nan` are not used in lattice-constant lines and not modelled). -/
def parseFloatStr (s : String) : Option ℚ :=
  match s.toList with
  | '-' :: r => (parseUFloatStr r).map Neg.neg
  | '+' :: r => parseUFloatStr r
  | r => parseUFloatStr r

/-- The `phases` accumulator dict of `_get_phases_from_header`: one list per
pattern key, in insertion order `id, name, formula, point_group,
lattice_constants` (ids are collected as raw tokens and converted with
`int` afterwards, lattice constants are converted with `float` on the
spot). -/
structure PhasesAcc where
  name : List String
  formula : List String
  point_group : List String
  lattice_constants : List (List ℚ)
  id : List String
deriving DecidableEq, Repr

/-- Process one header line against the five patterns in dict order,
appending the processed group to each matching key's list: the last token
for id/formula/point-group, the space-rejoined tokens after the marker word
for the material name, the float values of the tokens after the marker for
lattice constants. `none` models `IndexError`/`ValueError` during
processing. -/
def processLine (acc0 : PhasesAcc) (line : String) : Option PhasesAcc :=
  match (if matchesId line then
      match (tokensOf line).getLast? with
      | some t => some (PhasesAcc.mk acc0.name acc0.formula acc0.point_group
          acc0.lattice_constants (acc0.id ++ [t]))
      | none => none
    else some acc0) with
  | none => none
  | some acc1 =>
    let acc2 := if matchesName line then
        PhasesAcc.mk (acc1.name ++ [String.intercalate " " ((tokensOf line).drop 1)])
          acc1.formula acc1.point_group acc1.lattice_constants acc1.id
      else acc1
    match (if matchesFormula line then
        match (tokensOf line).getLast? with
        | some t => some (PhasesAcc.mk acc2.name (acc2.formula ++ [t])
            acc2.point_group acc2.lattice_constants acc2.id)
        | none => none
      else some acc2) with
    | none => none
    | some acc3 =>
      match (if matchesPointGroup line then
          match (tokensOf line).getLast? with
          | some t => some (PhasesAcc.mk acc3.name acc3.formula
              (acc3.point_group ++ [t]) acc3.lattice_constants acc3.id)
          | none => none
        else some acc3) with
      | none => none
      | some acc4 =>
        if matchesLattice line then
          match ((tokensOf line).drop 1).mapM parseFloatStr with
          | some fs => some (PhasesAcc.mk acc4.name acc4.formula acc4.point_group
              (acc4.lattice_constants ++ [fs]) acc4.id)
          | none => none
        else some acc4

/-- The line loop of `_get_phases_from_header`. -/
def collectPhases (header : List String) : Option PhasesAcc :=
  header.foldlM processLine (PhasesAcc.mk [] [] [] [] [])

/-- Python `max` on a list of ints (callers guard non-emptiness). -/
def listMaxI : List Int → Int
  | [] => 0
  | x :: xs => xs.foldl max x

/-- The tuple returned by `_get_phases_from_header`. -/
structure PhasesOut where
  ids : List Int
  names : List String
  point_groups : List String
  lattice_constants : List (List ℚ)
deriving DecidableEq, Repr

/-- The display-name resolution of `_get_phases_from_header`:
`names = phases["formula"]`, replaced by `phases["name"]` when the formula
list is empty or ANY of its entries is non-empty (the source condition is
`len(names) == 0 or any([i != "" for i in names])`). -/
def resolveNames (acc : PhasesAcc) : List String :=
  if acc.formula.length = 0 || acc.formula.any (fun i => i ≠ "") then acc.name
  else acc.formula

/-- The phase-id completion of `_get_phases_from_header`: no ids found gives
`0..n_phases-1`; fewer ids than phases appends consecutive ids starting at
`max(existing) + 1`. -/
def completeIds (pids : List Int) (nPhases : Nat) : List Int :=
  if pids.length = 0 then (List.range nPhases).map (fun i => (i : Int))
  else if 0 < nPhases - pids.length then
    pids ++ (List.range (nPhases - pids.length)).map
      (fun i => listMaxI pids + 1 + (i : Int))
  else pids

/-- The tail of `_get_phases_from_header` after the line loop: resolve the
display names, convert the collected id tokens with `int`, complete the id
list against the number of parsed material names. -/
def resolvePhases (acc : PhasesAcc) : Option PhasesOut :=
  match acc.id.mapM parseIntStr with
  | none => none
  | some pids =>
    some (PhasesOut.mk (completeIds pids acc.name.length) (resolveNames acc)
      acc.point_group acc.lattice_constants)

/-- `_get_phases_from_header`. -/
def getPhasesFromHeader (header : List String) : Option PhasesOut :=
  (collectPhases header).bind resolvePhases

/-- C3 (code bug): with a header carrying a non-empty formula (`Al2O3`) and
a material name (`Corundum`), the parser returns the MaterialName as display
name, not the formula, although the formula list is non-empty with every
entry non-empty. The source condition
`len(names) == 0 or any([i != "" for i in names])` keeps the formula list
only when all its entries are empty — the opposite of the intent stated in
its own comment ("Check if formula is empty ... "). -/
theorem formula_name_resolution_bug :
    getPhasesFromHeader ["# MaterialName Corundum", "# Formula Al2O3"] =
      some (PhasesOut.mk [0] ["Corundum"] [] []) ∧
    (["Corundum"] : List String) ≠ ["Al2O3"] := by decide

/-- C7: phase-id completion. For a parsed header with `n` phases (material
names): if no id tokens were collected, the returned ids are `0..n-1`; if
`k` ids were found with `0 < k < n`, the returned ids are the `k` found ids
followed by `n - k` consecutive ids starting at `max(found) + 1`. -/
theorem phase_id_completion (header : List String) (acc : PhasesAcc)
    (out : PhasesOut) (pids : List Int)
    (hc : collectPhases header = some acc)
    (hp : acc.id.mapM parseIntStr = some pids)
    (hr : getPhasesFromHeader header = some out) :
    (pids = [] → out.ids = (List.range acc.name.length).map (fun i => (i : Int))) ∧
    (0 < pids.length → pids.length < acc.name.length →
      out.ids = pids ++ (List.range (acc.name.length - pids.length)).map
        (fun i => listMaxI pids + 1 + (i : Int))) := by
  unfold getPhasesFromHeader at hr
  rw [hc] at hr
  replace hr : resolvePhases acc = some out := hr
  unfold resolvePhases at hr
  rw [hp] at hr
  obtain rfl := Option.some.inj hr
  constructor
  · intro h
    subst h
    simp [completeIds]
  · intro h1 h2
    show completeIds pids acc.name.length = _
    unfold completeIds
    rw [if_neg (by omega), if_pos (by omega)]

/-- C7 witness: the spec's concrete scenario — phases `[A, B, C]` with one
explicit id `2` yield ids `[2, 3, 4]`. -/
theorem phase_id_completion_witness :
    ((0 : Nat) < ([(2 : Int)]).length) ∧
    (([(2 : Int)]).length <
      (PhasesAcc.mk ["A", "B", "C"] [] [] [] ["2"]).name.length) ∧
    ((PhasesOut.mk [2, 3, 4] ["A", "B", "C"] [] []).ids =
      [(2 : Int)] ++
        (List.range ((PhasesAcc.mk ["A", "B", "C"] [] [] [] ["2"]).name.length -
          ([(2 : Int)]).length)).map
          (fun i => listMaxI [(2 : Int)] + 1 + (i : Int))) :=
  ⟨by decide, by decide,
    (phase_id_completion
      ["# MaterialName A", "# MaterialName B", "# MaterialName C", "# Phase 2"]
      (PhasesAcc.mk ["A", "B", "C"] [] [] [] ["2"])
      (PhasesOut.mk [2, 3, 4] ["A", "B", "C"] [] []) [2]
      (by decide) (by decide) (by decide)).2 (by decide) (by decide)⟩

/-- Association-list lookup for property columns (Python `dict` access). -/
def lookupL : List (String × List ℚ) → String → Option (List ℚ)
  | [], _ => none
  | p :: ps, k => if p.1 = k then some p.2 else lookupL ps k

/-- Association-list store for property columns (`dict.__setitem__`). -/
def updateL : List (String × List ℚ) → String → List ℚ → List (String × List ℚ)
  | [], k, c => [(k, c)]
  | p :: ps, k, c => if p.1 = k then (k, c) :: ps else p :: updateL ps k c

/-- Column `j` of the raw data matrix, `file_data[:, j]`, as a fallible
operation (`none` when some row is too short — NumPy would have raised an
IndexError for `j` beyond the rectangular matrix's width). -/
def colOf (fd : List (List ℚ)) (j : Nat) : Option (List ℚ) :=
  fd.mapM (fun r => r[j]?)

/-- Column `j` of a rectangular data matrix (total form, used in
specifications; agrees with `colOf` whenever that succeeds). -/
def column (fd : List (List ℚ)) (j : Nat) : List ℚ :=
  fd.map (fun r => r.getD j 0)

/-- The `data_dict` being filled by the column loop of `file_reader`:
dedicated keys `euler1, euler2, euler3, x, y, phase_id` plus the `prop`
dict of the remaining columns. -/
structure ReadData where
  euler1 : Option (List ℚ)
  euler2 : Option (List ℚ)
  euler3 : Option (List ℚ)
  x : Option (List ℚ)
  y : Option (List ℚ)
  phase_id : Option (List ℚ)
  prop : List (String × List ℚ)
deriving DecidableEq, Repr

/-- One iteration of the column loop: a recognized name fills its dedicated
slot, any other name becomes a `prop` entry. (The literal name `"prop"`
would clobber the prop dict in Python, but no vendor schema and no
auto-generated name is called `"prop"`, so that branch is unreachable and
not modelled.) -/
def routeOne (d : ReadData) (name : String) (col : List ℚ) : ReadData :=
  if name = "euler1" then
    ReadData.mk (some col) d.euler2 d.euler3 d.x d.y d.phase_id d.prop
  else if name = "euler2" then
    ReadData.mk d.euler1 (some col) d.euler3 d.x d.y d.phase_id d.prop
  else if name = "euler3" then
    ReadData.mk d.euler1 d.euler2 (some col) d.x d.y d.phase_id d.prop
  else if name = "x" then
    ReadData.mk d.euler1 d.euler2 d.euler3 (some col) d.y d.phase_id d.prop
  else if name = "y" then
    ReadData.mk d.euler1 d.euler2 d.euler3 d.x (some col) d.phase_id d.prop
  else if name = "phase_id" then
    ReadData.mk d.euler1 d.euler2 d.euler3 d.x d.y (some col) d.prop
  else
    ReadData.mk d.euler1 d.euler2 d.euler3 d.x d.y d.phase_id
      (updateL d.prop name col)

/-- The column loop `for column, name in enumerate(column_names)`. -/
def routeAll (pairs : List (String × List ℚ)) (d : ReadData) : ReadData :=
  pairs.foldl (fun d p => routeOne d p.1 p.2) d

/-- The empty `data_dict`. -/
def emptyReadData : ReadData :=
  ReadData.mk none none none none none none []

/-- The EDAX TSL not-indexed rule
`phase_id[np.where(ci == -1)] = -1`, as a pointwise update of two
equal-length columns of the same matrix. -/
def applyNotIndexed (ci pid : List ℚ) : List ℚ :=
  List.zipWith (fun c p => if c = -1 then (-1 : ℚ) else p) ci pid

/-- The structured result assembled by `file_reader` (rotations are the
stacked Euler columns handed to the external `Rotation.from_euler`). -/
structure ReadResult where
  rotations : List (ℚ × ℚ × ℚ)
  x : Option (List ℚ)
  y : Option (List ℚ)
  phase_id : Option (List ℚ)
  prop : List (String × List ℚ)
  phases : PhasesOut
  scan_unit : String
deriving DecidableEq, Repr

/-- The tail of `file_reader` after the column split: apply the TSL
not-indexed rule (`KeyError`/`None` failures modelled as `none`), set the
scan unit, and stack the Euler columns for the external
`Rotation.from_euler`. -/
def readFinish (vendor : String) (d : ReadData) (phs : PhasesOut) :
    Option ReadResult :=
  match (if vendor = "tsl" then
      match lookupL d.prop "ci", d.phase_id with
      | some ci, some pid => some (some (applyNotIndexed ci pid))
      | _, _ => none
    else some d.phase_id) with
  | none => none
  | some pid2 =>
    match d.euler1, d.euler2, d.euler3 with
    | some e1, some e2, some e3 =>
      some (ReadResult.mk (e1.zip (e2.zip e3)) d.x d.y pid2 d.prop phs
        (if vendor = "tsl" || vendor = "emsoft" then "um" else "nm"))
    | _, _, _ => none

/-- `file_reader` after `np.loadtxt`: parse the phases from the header,
resolve vendor and column names against the file's column count, split the
matrix columns into the data dict, then `readFinish`. `none` models the
exceptions of the corresponding Python steps (empty matrix, missing column,
failed phase parse). -/
def readAssemble (header : List String) (fd : List (List ℚ)) : Option ReadResult :=
  match getPhasesFromHeader header with
  | none => none
  | some phs =>
    match fd.head? with
    | none => none
    | some r0 =>
      match (List.range (getVendorColumns header r0.length).2.length).mapM
          (fun j => colOf fd j) with
      | none => none
      | some cols =>
        readFinish (getVendorColumns header r0.length).1
          (routeAll ((getVendorColumns header r0.length).2.zip cols) emptyReadData)
          phs

theorem mapM_some_forall (f : Nat → Option (List ℚ)) (l : List Nat)
    (ys : List (List ℚ)) (h : l.mapM f = some ys) :
    ∀ a ∈ l, ∃ y, f a = some y := by
  induction l generalizing ys with
  | nil => intro a ha; cases ha
  | cons b bs ih =>
    intro a ha
    rw [List.mapM_cons] at h
    cases hb : f b with
    | none => rw [hb] at h; cases h
    | some y =>
      rw [hb] at h
      cases hbs : bs.mapM f with
      | none => rw [hbs] at h; cases h
      | some ys2 =>
        rcases List.mem_cons.mp ha with rfl | ha2
        · exact ⟨y, hb⟩
        · exact ih ys2 hbs a ha2

theorem mapM_eq_map (f : Nat → Option (List ℚ)) (g : Nat → List ℚ)
    (l : List Nat) (hl : ∀ a ∈ l, f a = some (g a)) :
    l.mapM f = some (l.map g) := by
  induction l with
  | nil => rfl
  | cons b bs ih =>
    rw [List.mapM_cons, hl b (List.mem_cons_self b bs),
      ih (fun a ha => hl a (List.mem_cons_of_mem b ha))]
    rfl

theorem colOf_eq_column (fd : List (List ℚ)) (j : Nat) (c : List ℚ)
    (h : colOf fd j = some c) : c = column fd j := by
  induction fd generalizing c with
  | nil =>
    rw [show colOf ([] : List (List ℚ)) j = some [] from rfl] at h
    obtain rfl := Option.some.inj h
    rfl
  | cons r rs ih =>
    rw [colOf, List.mapM_cons] at h
    cases hr : r[j]? with
    | none => rw [hr] at h; cases h
    | some v =>
      rw [hr] at h
      cases hrs : rs.mapM (fun r => r[j]?) with
      | none => rw [hrs] at h; cases h
      | some cs =>
        rw [hrs] at h
        replace h : some (v :: cs) = some c := h
        obtain rfl := Option.some.inj h
        have hv : r.getD j 0 = v := by
          simp [List.getD, hr]
        have hcs := ih cs hrs
        simp only [column, List.map_cons, List.cons.injEq]
        exact ⟨hv.symm, hcs⟩

/-- The six dedicated `data_dict` keys. -/
def recognizedName (s : String) : Bool :=
  s = "euler1" || s = "euler2" || s = "euler3" || s = "x" || s = "y" ||
    s = "phase_id"

theorem routeOne_unrec (d : ReadData) (name : String) (col : List ℚ)
    (h : recognizedName name = false) :
    routeOne d name col =
      ReadData.mk d.euler1 d.euler2 d.euler3 d.x d.y d.phase_id
        (updateL d.prop name col) := by
  simp only [recognizedName, Bool.or_eq_false_iff, decide_eq_false_iff_not] at h
  obtain ⟨⟨⟨⟨⟨h1, h2⟩, h3⟩, h4⟩, h5⟩, h6⟩ := h
  simp [routeOne, h1, h2, h3, h4, h5, h6]

theorem routeAll_unrec (pairs : List (String × List ℚ)) (d : ReadData)
    (hp : ∀ p ∈ pairs, recognizedName p.1 = false) :
    (routeAll pairs d).euler1 = d.euler1 ∧
    (routeAll pairs d).euler2 = d.euler2 ∧
    (routeAll pairs d).euler3 = d.euler3 ∧
    (routeAll pairs d).phase_id = d.phase_id := by
  induction pairs generalizing d with
  | nil => exact ⟨rfl, rfl, rfl, rfl⟩
  | cons p ps ih =>
    have h1 := routeOne_unrec d p.1 p.2 (hp p (List.mem_cons_self p ps))
    have h2 := ih (routeOne d p.1 p.2) (fun q hq => hp q (List.mem_cons_of_mem p hq))
    simp only [routeAll, List.foldl_cons] at h2 ⊢
    rw [h1]
    rw [h1] at h2
    exact h2

theorem unknown_prefix_ne (s t : String) (ht : t.data.head? ≠ some 'u') :
    "unknown" ++ s ≠ t := by
  intro h
  apply ht
  rw [← h]
  rfl

theorem recognized_unknown_false (s : String) :
    recognizedName ("unknown" ++ s) = false := by
  have h1 : "unknown" ++ s ≠ "euler1" := unknown_prefix_ne s _ (by decide)
  have h2 : "unknown" ++ s ≠ "euler2" := unknown_prefix_ne s _ (by decide)
  have h3 : "unknown" ++ s ≠ "euler3" := unknown_prefix_ne s _ (by decide)
  have h4 : "unknown" ++ s ≠ "x" := unknown_prefix_ne s _ (by decide)
  have h5 : "unknown" ++ s ≠ "y" := unknown_prefix_ne s _ (by decide)
  have h6 : "unknown" ++ s ≠ "phase_id" := unknown_prefix_ne s _ (by decide)
  simp [recognizedName, h1, h2, h3, h4, h5, h6]

theorem detectVendor_mem (header : List String) :
    detectVendor header = "tsl" ∨ detectVendor header = "emsoft" ∨
      detectVendor header = "astar" := by
  unfold detectVendor vendorFootprint
  simp only [List.foldl_cons, List.foldl_nil]
  cases header.any (fun line => strContains line "ACOM") <;>
    cases header.any (fun line => strContains line "EMsoft") <;> simp

theorem routeAll_append (p1 p2 : List (String × List ℚ)) (d : ReadData) :
    routeAll (p1 ++ p2) d = routeAll p2 (routeAll p1 d) := by
  simp [routeAll, List.foldl_append]

/-- C6: in the assembled dataset, when the detected vendor is the default
(`"tsl"`), a point's phase id is the sentinel `-1` exactly where the
confidence-index column (raw column 6) equals `-1`, and the raw phase-id
column (column 7) otherwise — regardless of the raw phase id; for every
other vendor the phase ids are the raw column 7, unchanged. -/
theorem not_indexed_rule (header : List String) (fd : List (List ℚ)) (n : Nat)
    (res : ReadResult)
    (hrect : ∀ r ∈ fd, r.length = n)
    (h : readAssemble header fd = some res) :
    ((getVendorColumns header n).1 = "tsl" →
      res.phase_id = some (applyNotIndexed (column fd 6) (column fd 7))) ∧
    ((getVendorColumns header n).1 ≠ "tsl" →
      res.phase_id = some (column fd 7)) := by
  unfold readAssemble at h
  cases hph : getPhasesFromHeader header with
  | none => rw [hph] at h; cases h
  | some phs =>
  rw [hph] at h
  cases fd with
  | nil => cases h
  | cons r0 rest =>
  have hr0 : r0.length = n := hrect r0 (List.mem_cons_self r0 rest)
  simp only [List.head?_cons] at h
  rw [hr0] at h
  cases hm : (List.range (getVendorColumns header n).2.length).mapM
      (fun j => colOf (r0 :: rest) j) with
  | none => rw [hm] at h; cases h
  | some cols =>
  rw [hm] at h
  have hcols : cols =
      (List.range (getVendorColumns header n).2.length).map (column (r0 :: rest)) := by
    have hall : ∀ j ∈ List.range (getVendorColumns header n).2.length,
        colOf (r0 :: rest) j = some (column (r0 :: rest) j) := by
      intro j hj
      obtain ⟨c, hc⟩ := mapM_some_forall _ _ _ hm j hj
      rw [hc, colOf_eq_column _ _ _ hc]
    have h2 := mapM_eq_map _ _ _ hall
    rw [hm] at h2
    exact Option.some.inj h2
  subst hcols
  replace h : readFinish (getVendorColumns header n).1
      (routeAll ((getVendorColumns header n).2.zip
        ((List.range (getVendorColumns header n).2.length).map (column (r0 :: rest))))
        emptyReadData) phs = some res := h
  by_cases hx : n = (columnsFor (detectVendor header)).length
  · -- column count matches the detected vendor's schema
    have hvc : getVendorColumns header n =
        (detectVendor header, columnsFor (detectVendor header)) := by
      unfold getVendorColumns
      rw [if_neg (fun hne => hne hx)]
    rcases detectVendor_mem header with hv | hv | hv <;> rw [hvc, hv] at h ⊢
    · -- tsl
      replace h : some (ReadResult.mk
          ((column (r0 :: rest) 0).zip
            ((column (r0 :: rest) 1).zip (column (r0 :: rest) 2)))
          (some (column (r0 :: rest) 3)) (some (column (r0 :: rest) 4))
          (some (applyNotIndexed (column (r0 :: rest) 6) (column (r0 :: rest) 7)))
          [("iq", column (r0 :: rest) 5), ("ci", column (r0 :: rest) 6),
           ("unknown1", column (r0 :: rest) 8), ("fit", column (r0 :: rest) 9),
           ("unknown2", column (r0 :: rest) 10), ("unknown3", column (r0 :: rest) 11),
           ("unknown4", column (r0 :: rest) 12), ("unknown5", column (r0 :: rest) 13)]
          phs "um") = some res := h
      obtain rfl := (Option.some.inj h).symm
      exact ⟨fun _ => rfl, fun hne => absurd rfl hne⟩
    · -- emsoft
      replace h : some (ReadResult.mk
          ((column (r0 :: rest) 0).zip
            ((column (r0 :: rest) 1).zip (column (r0 :: rest) 2)))
          (some (column (r0 :: rest) 3)) (some (column (r0 :: rest) 4))
          (some (column (r0 :: rest) 7))
          [("iq", column (r0 :: rest) 5), ("dp", column (r0 :: rest) 6)]
          phs "um") = some res := h
      obtain rfl := (Option.some.inj h).symm
      exact ⟨fun habs => absurd habs (by decide), fun _ => rfl⟩
    · -- astar
      replace h : some (ReadResult.mk
          ((column (r0 :: rest) 0).zip
            ((column (r0 :: rest) 1).zip (column (r0 :: rest) 2)))
          (some (column (r0 :: rest) 3)) (some (column (r0 :: rest) 4))
          (some (column (r0 :: rest) 7))
          [("ind", column (r0 :: rest) 5), ("rel", column (r0 :: rest) 6),
           ("relx100", column (r0 :: rest) 8)]
          phs "nm") = some res := h
      obtain rfl := (Option.some.inj h).symm
      exact ⟨fun habs => absurd habs (by decide), fun _ => rfl⟩
  · -- mismatch: fallback schema, vendor "unknown"
    have hvc : getVendorColumns header n = ("unknown", unknownColumns ++
        (List.range (n - 8)).map (fun i => "unknown" ++ natToStr (i + 3))) := by
      unfold getVendorColumns
      rw [if_pos hx]
      rfl
    rw [hvc] at h ⊢
    have hlen : (unknownColumns ++
        (List.range (n - 8)).map (fun i => "unknown" ++ natToStr (i + 3))).length
        = 8 + (n - 8) := by
      simp [unknownColumns]
      omega
    replace h : readFinish "unknown"
        (routeAll ((unknownColumns ++ (List.range (n - 8)).map
            (fun i => "unknown" ++ natToStr (i + 3))).zip
          ((List.range ((unknownColumns ++ (List.range (n - 8)).map
            (fun i => "unknown" ++ natToStr (i + 3))).length)).map
            (column (r0 :: rest)))) emptyReadData) phs = some res := h
    rw [hlen, List.range_add, List.map_append, List.map_map] at h
    rw [List.zip_append (by simp [unknownColumns]), routeAll_append] at h
    obtain ⟨he1, he2, he3, hpid⟩ := routeAll_unrec
      (((List.range (n - 8)).map (fun i => "unknown" ++ natToStr (i + 3))).zip
        ((List.range (n - 8)).map (column (r0 :: rest) ∘ (fun i => 8 + i))))
      (routeAll (unknownColumns.zip
        ((List.range 8).map (column (r0 :: rest)))) emptyReadData)
      (by
        intro p hp
        obtain ⟨hp1, _⟩ := List.of_mem_zip hp
        obtain ⟨i, _, hpe⟩ := List.mem_map.mp hp1
        rw [← hpe]
        exact recognized_unknown_false _)
    unfold readFinish at h
    rw [if_neg (by decide : ¬("unknown" = "tsl"))] at h
    rw [he1, he2, he3, hpid] at h
    replace h : some (ReadResult.mk
        ((column (r0 :: rest) 0).zip
          ((column (r0 :: rest) 1).zip (column (r0 :: rest) 2)))
        (routeAll (((List.range (n - 8)).map
            (fun i => "unknown" ++ natToStr (i + 3))).zip
          ((List.range (n - 8)).map (column (r0 :: rest) ∘ (fun i => 8 + i))))
          (routeAll (unknownColumns.zip
            ((List.range 8).map (column (r0 :: rest)))) emptyReadData)).x
        (routeAll (((List.range (n - 8)).map
            (fun i => "unknown" ++ natToStr (i + 3))).zip
          ((List.range (n - 8)).map (column (r0 :: rest) ∘ (fun i => 8 + i))))
          (routeAll (unknownColumns.zip
            ((List.range 8).map (column (r0 :: rest)))) emptyReadData)).y
        (some (column (r0 :: rest) 7))
        (routeAll (((List.range (n - 8)).map
            (fun i => "unknown" ++ natToStr (i + 3))).zip
          ((List.range (n - 8)).map (column (r0 :: rest) ∘ (fun i => 8 + i))))
          (routeAll (unknownColumns.zip
            ((List.range 8).map (column (r0 :: rest)))) emptyReadData)).prop
        phs "nm") = some res := h
    obtain rfl := (Option.some.inj h).symm
    exact ⟨fun habs => absurd (show ("unknown" : String) = "tsl" from habs)
      (by decide), fun _ => rfl⟩

/-- C6 witness: a default-vendor (empty header) 14-column file with one row
whose confidence index is `-1` and raw phase id is `3`; the assembled
dataset carries phase id `-1` at that point. -/
theorem not_indexed_rule_witness :
    ((getVendorColumns ([] : List String) 14).1 = "tsl") ∧
    (((getVendorColumns ([] : List String) 14).1 = "tsl" →
      (ReadResult.mk [((0 : ℚ), (0 : ℚ), (0 : ℚ))] (some [0]) (some [0])
          (some [-1])
          [("iq", [5]), ("ci", [-1]), ("unknown1", [0]), ("fit", [1]),
           ("unknown2", [0]), ("unknown3", [0]), ("unknown4", [0]),
           ("unknown5", [0])]
          (PhasesOut.mk [] [] [] []) "um").phase_id =
        some (applyNotIndexed
          (column [[0, 0, 0, 0, 0, 5, -1, 3, 0, 1, 0, 0, 0, 0]] 6)
          (column [[0, 0, 0, 0, 0, 5, -1, 3, 0, 1, 0, 0, 0, 0]] 7))) ∧
    ((getVendorColumns ([] : List String) 14).1 ≠ "tsl" →
      (ReadResult.mk [((0 : ℚ), (0 : ℚ), (0 : ℚ))] (some [0]) (some [0])
          (some [-1])
          [("iq", [5]), ("ci", [-1]), ("unknown1", [0]), ("fit", [1]),
           ("unknown2", [0]), ("unknown3", [0]), ("unknown4", [0]),
           ("unknown5", [0])]
          (PhasesOut.mk [] [] [] []) "um").phase_id =
        some (column [[0, 0, 0, 0, 0, 5, -1, 3, 0, 1, 0, 0, 0, 0]] 7))) :=
  ⟨by decide,
    not_indexed_rule [] [[0, 0, 0, 0, 0, 5, -1, 3, 0, 1, 0, 0, 0, 0]] 14
      (ReadResult.mk [((0 : ℚ), (0 : ℚ), (0 : ℚ))] (some [0]) (some [0])
        (some [-1])
        [("iq", [5]), ("ci", [-1]), ("unknown1", [0]), ("fit", [1]),
         ("unknown2", [0]), ("unknown3", [0]), ("unknown4", [0]),
         ("unknown5", [0])]
        (PhasesOut.mk [] [] [] []) "um")
      (by decide) (by decide)⟩

/-- Modelled from the spec: the phase metadata the writer reads from the
external phase list — display name, point-group name, and the six lattice
constants `(a, b, c, α, β, γ)` exposed by `phase.structure.lattice.abcABG()`.
The orix `Phase` type itself is an external collaborator and is not under
`src/`. -/
structure PhaseModel where
  name : String
  point_group : String
  abcABG : List ℚ
deriving DecidableEq, Repr

/-- Modelled from the spec: the CrystalMap container (an external
collaborator, not under `src/`) as the writer sees it — dimensionality,
grid shape, step sizes, phase list, named per-point properties, and the
full-grid data that `get_map_data` returns (orientation Euler triples and
phase ids, with inactive points already filled with the placeholder). -/
structure CrystalMap where
  ndim : Nat
  shape : List Nat
  dx : ℚ
  dy : ℚ
  phases : List (Int × PhaseModel)
  prop : List (String × List ℚ)
  eulers : List (ℚ × ℚ × ℚ)
  phase_id : List ℚ
deriving DecidableEq, Repr

/-- The `(nrows, ncols, dy, dx)` tuple of `_get_nrows_ncols_step_sizes`. -/
structure GridParams where
  nrows : Nat
  ncols : Nat
  dy : ℚ
  dx : ℚ
deriving DecidableEq, Repr

/-- `_get_nrows_ncols_step_sizes`: 1-D maps become one row with `dy = 1`;
2-D maps unpack their shape (the tuple unpacking assumes
`len(shape) = ndim`; out-of-range accesses keep the initial value 1). -/
def getNrowsNcolsStepSizes (m : CrystalMap) : GridParams :=
  if m.ndim = 1 then GridParams.mk 1 (m.shape.getD 0 1) 1 m.dx
  else GridParams.mk (m.shape.getD 0 1) (m.shape.getD 1 1) m.dy m.dx

/-- `_get_column_width(max_value, decimals)`:
`len(str(int(max_value // 1))) + decimals + 1`. -/
def getColumnWidth (maxValue : ℚ) (decimals : Nat) : Nat :=
  (intToStr (ratFloor maxValue)).length + decimals + 1

/-- Round-half-to-even of a rational to an integer, the rounding used by
`np.round` and by Python float formatting. -/
def roundHalfEven (x : ℚ) : Int :=
  if x - (ratFloor x : ℚ) < 1/2 then ratFloor x
  else if (1/2 : ℚ) < x - (ratFloor x : ℚ) then ratFloor x + 1
  else if ratFloor x % 2 = 0 then ratFloor x else ratFloor x + 1

/-- `np.round(x, d)`. -/
def nround (d : Nat) (x : ℚ) : ℚ :=
  (roundHalfEven (x * 10 ^ d) : ℚ) / 10 ^ d

/-- Left-pad with spaces to `width`. -/
def padLeft (width : Nat) (s : String) : String :=
  String.mk (List.replicate (width - s.length) ' ') ++ s

/-- C `%{width}.{decimals}f` fixed-point formatting of a value (sign, integer
part, point, zero-padded fraction, space-padded to the field width). -/
def fmtFixed (width decimals : Nat) (q : ℚ) : String :=
  let scaled := roundHalfEven (q * 10 ^ decimals)
  let sign := if scaled < 0 then "-" else ""
  let a := scaled.natAbs
  let fpS := natToStr (a % 10 ^ decimals)
  let fpPad := String.mk (List.replicate (decimals - fpS.length) '0') ++ fpS
  padLeft width
    (sign ++ natToStr (a / 10 ^ decimals) ++
      (if decimals = 0 then "" else "." ++ fpPad))

/-- `%i` applied to a float value: truncate toward zero, print the integer. -/
def fmtInt (q : ℚ) : String :=
  intToStr (ratTrunc q)

/-- `k.lower().replace("_", "")`. -/
def lowerStrip (s : String) : String :=
  String.mk ((s.toList.map Char.toLower).filter (fun c => c ≠ '_'))

/-- First index at which the list holds `k` (NumPy `argmax` of the Boolean
equality array, guarded by `any`). -/
def firstIdx (k : String) : List String → Option Nat
  | [] => none
  | s :: ss => if s = k then some 0 else (firstIdx k ss).map Nat.succ

/-- The alias search of `_get_prop_array`: the first expected name equal to
some lowered property name selects the original property name at that
position. -/
def aliasSearch (expected : List String) (propNames : List String) : Option String :=
  match expected with
  | [] => none
  | k :: ks =>
    match firstIdx k (propNames.map lowerStrip) with
    | some j => some (propNames.getD j "")
    | none => aliasSearch ks propNames

/-- Modelled from the spec: `CrystalMap.get_map_data(name, decimals,
fill_value)` for a property name — the container returns the property's
values reshaped onto the grid with inactive points filled; the model stores
full-grid values directly and applies the rounding. `none` models the
failure on an unknown property name. -/
def getMapDataProp (m : CrystalMap) (name : String) (decimals : Nat) :
    Option (List ℚ) :=
  (lookupL m.prop name).map (fun l => l.map (nround decimals))

/-- `_get_prop_array`: an explicit property name is fetched directly;
otherwise the alias search picks a name, and `None` (no match, modelled by
the inner `none`) lets the caller fall back to zeros. The outer `none`
models a raised exception. -/
def getPropArray (m : CrystalMap) (propName : Option String)
    (expected : List String) : Option (Option (List ℚ)) :=
  match propName with
  | some n1 =>
    match getMapDataProp m n1 5 with
    | some p => some (some p)
    | none => none
  | none =>
    match aliasSearch expected (m.prop.map Prod.fst) with
    | none => some none
    | some n1 =>
      match getMapDataProp m n1 5 with
      | some p => some (some p)
      | none => none

/-- One column of `prop_arrays` in `_get_prop_arrays`: a found property must
reshape to the map size, a missing one stays the zero-filled column.
(The float32 dtype of the zeros array is a floating-point detail outside
this rational model.) -/
def toPropColumn (mapSize : Nat) (p : Option (List ℚ)) : Option (List ℚ) :=
  match p with
  | none => some (List.replicate mapSize 0)
  | some l => if l.length = mapSize then some l else none

/-- The image-quality aliases of `_get_prop_arrays`. -/
def iqAliases : List String := ["iq", "image_quality", "imagequality"]

/-- The confidence-index aliases. -/
def ciAliases : List String := ["ci", "confidence_index", "confidenceindex"]

/-- The SEM-signal aliases. -/
def ssAliases : List String := ["ss", "sem_signal", "semsignal"]

/-- The pattern-fit aliases. -/
def fitAliases : List String := ["fit", "pattern_fit", "patternfit"]

/-- One resolved output column of `_get_prop_arrays`. -/
def resolveColumn (m : CrystalMap) (propName : Option String)
    (expected : List String) (mapSize : Nat) : Option (List ℚ) :=
  match getPropArray m propName expected with
  | none => none
  | some p => toPropColumn mapSize p

/-- `np.tile(l, n)`. -/
def tileQ (l : List ℚ) (n : Nat) : List ℚ :=
  (List.replicate n l).flatten

/-- `x = np.tile(np.arange(ncols) * dx, nrows)`. -/
def xCoords (g : GridParams) : List ℚ :=
  tileQ ((List.range g.ncols).map (fun c => (c : ℚ) * g.dx)) g.nrows

/-- `y = np.sort(np.tile(np.arange(nrows) * dy, ncols))`. -/
def yCoords (g : GridParams) : List ℚ :=
  List.insertionSort (fun a b => a ≤ b)
    (tileQ ((List.range g.nrows).map (fun r => (r : ℚ) * g.dy)) g.ncols)

/-- `np.max` of a non-empty array (callers guard emptiness). -/
def qmax : List ℚ → ℚ
  | [] => 0
  | x :: xs => xs.foldl (fun a b => if a ≤ b then b else a) x

/-- The row of `np.savetxt` for point `i`: the `column_stack` order
`eulers, x, y, iq, ci, phase_id, sem-signal, pattern-fit` formatted with
`%8.5f ×3, %{x_width}.5f, %{y_width}.5f, %{iq_width}.5f, %{ci_width}.5f,
%i, %{fit_width}.5f, %{sem_signal_width}.5f`. In the source,
`sem_signal_width` is computed from `prop_arrays[:, 3]` (the pattern-fit
column) and `fit_width` from `prop_arrays[:, 2]` (the SEM-signal column),
so the swapped variable names cancel out and each printed column is padded
by its own maximum. -/
def writerRow (g : GridParams) (m : CrystalMap)
    (iqCol ciCol ssCol fitCol : List ℚ) (i : Nat) : List String :=
  let x := xCoords g
  let y := yCoords g
  let sem_signal_width := getColumnWidth (qmax fitCol) 5
  let fit_width := getColumnWidth (qmax ssCol) 5
  let e := m.eulers.getD i (0, 0, 0)
  [fmtFixed 8 5 (nround 5 e.1),
   fmtFixed 8 5 (nround 5 e.2.1),
   fmtFixed 8 5 (nround 5 e.2.2),
   fmtFixed (getColumnWidth (qmax x) 5) 5 (x.getD i 0),
   fmtFixed (getColumnWidth (qmax y) 5) 5 (y.getD i 0),
   fmtFixed (getColumnWidth (qmax iqCol) 5) 5 (iqCol.getD i 0),
   fmtFixed (getColumnWidth (qmax ciCol) 5) 5 (ciCol.getD i 0),
   fmtInt (m.phase_id.getD i 0),
   fmtFixed fit_width 5 (ssCol.getD i 0),
   fmtFixed sem_signal_width 5 (fitCol.getD i 0)]

/-- The data-row computation of `file_writer` after the dimensionality
guard: derive the grid, resolve the four conventional property columns
(image quality, confidence index, SEM signal, pattern fit), check the
reshapes, and format one row per point in row-major order. `Except.error`
models the NumPy exceptions (empty reductions, reshape failures, unknown
explicit property names). -/
def writerCompute (m : CrystalMap) (iqName ciName ssName fitName : Option String) :
    Except String (List (List String)) :=
  if (getNrowsNcolsStepSizes m).nrows * (getNrowsNcolsStepSizes m).ncols = 0 then
    Except.error "zero-size array to reduction operation maximum"
  else if m.eulers.length ≠
      (getNrowsNcolsStepSizes m).nrows * (getNrowsNcolsStepSizes m).ncols then
    Except.error "cannot reshape rotations"
  else
    match resolveColumn m iqName iqAliases
        ((getNrowsNcolsStepSizes m).nrows * (getNrowsNcolsStepSizes m).ncols) with
    | none => Except.error "image-quality column"
    | some iqCol =>
    match resolveColumn m ciName ciAliases
        ((getNrowsNcolsStepSizes m).nrows * (getNrowsNcolsStepSizes m).ncols) with
    | none => Except.error "confidence-index column"
    | some ciCol =>
    match resolveColumn m ssName ssAliases
        ((getNrowsNcolsStepSizes m).nrows * (getNrowsNcolsStepSizes m).ncols) with
    | none => Except.error "sem-signal column"
    | some ssCol =>
    match resolveColumn m fitName fitAliases
        ((getNrowsNcolsStepSizes m).nrows * (getNrowsNcolsStepSizes m).ncols) with
    | none => Except.error "pattern-fit column"
    | some fitCol =>
    if m.phase_id.length ≠
        (getNrowsNcolsStepSizes m).nrows * (getNrowsNcolsStepSizes m).ncols then
      Except.error "cannot reshape phase ids"
    else
      Except.ok ((List.range
          ((getNrowsNcolsStepSizes m).nrows * (getNrowsNcolsStepSizes m).ncols)).map
        (writerRow (getNrowsNcolsStepSizes m) m iqCol ciCol ssCol fitCol))

/-- Split a character list at every occurrence of `sep`. -/
def splitOnChar (sep : Char) : List Char → List (List Char)
  | [] => [[]]
  | c :: cs =>
    if c = sep then [] :: splitOnChar sep cs
    else
      match splitOnChar sep cs with
      | [] => [[c]]
      | w :: ws => (c :: w) :: ws

/-- The lines of a string (`split` at newlines). -/
def linesOf (s : String) : List String :=
  (splitOnChar '\n' s.toList).map (fun l => String.mk l)

/-- The orix version string interpolated into the OPERATOR header line
(`orix.__version__` is not part of the staged sources; its exact value does
not matter to any property below). -/
def orixVersion : String := "0.5.1"

/-- `" ".join([f"{float(val):.3f}" for val in lattice_constants])`. -/
def latticeStr (p : PhaseModel) : String :=
  String.intercalate " " (p.abcABG.map (fmtFixed 0 3))

/-- One per-phase block of `_get_ang_header`: both the MaterialName and the
Formula lines interpolate `phase.name`. -/
def phaseBlock (pid : Int) (p : PhaseModel) : String :=
  "Phase " ++ intToStr pid ++ "\n" ++
  "MaterialName    " ++ p.name ++ "\n" ++
  "Formula    " ++ p.name ++ "\n" ++
  "Info\n" ++
  "Symmetry    " ++ p.point_group ++ "\n" ++
  "LatticeConstants    " ++ latticeStr p ++ "\n" ++
  "NumberFamilies    0\n"

/-- The fixed microscope/calibration preamble of `_get_ang_header`. -/
def headerPreamble : String :=
  "TEM_PIXperUM           1.000000\n" ++
  "x-star                 0.000000\n" ++
  "y-star                 0.000000\n" ++
  "z-star                 0.000000\n" ++
  "WorkingDistance        0.000000\n" ++
  "\n"

/-- The grid/operator tail of `_get_ang_header`. -/
def headerMapInfo (m : CrystalMap) : String :=
  "GRID: SqrGrid\n" ++
  "XSTEP: " ++ fmtFixed 0 6 m.dx ++ "\n" ++
  "YSTEP: " ++ fmtFixed 0 6 m.dy ++ "\n" ++
  "NCOLS_ODD: " ++ natToStr (getNrowsNcolsStepSizes m).ncols ++ "\n" ++
  "NCOLS_EVEN: " ++ natToStr (getNrowsNcolsStepSizes m).ncols ++ "\n" ++
  "NROWS: " ++ natToStr (getNrowsNcolsStepSizes m).nrows ++ "\n" ++
  "\n" ++
  "OPERATOR: orix " ++ orixVersion ++ "\n" ++
  "\n" ++
  "SAMPLEID:\n" ++
  "\n" ++
  "SCANID:\n"

/-- Sequential string concatenation (the `header += ...` loop). -/
def joinStr : List String → String
  | [] => ""
  | s :: rest => s ++ joinStr rest

/-- `_get_ang_header`: preamble, one block per phase, grid metadata. -/
def getAngHeader (m : CrystalMap) : String :=
  headerPreamble ++
  joinStr (m.phases.map (fun ip => phaseBlock ip.1 ip.2)) ++
  headerMapInfo m

/-- `file_writer`: the dimensionality guard raises before anything is
produced; otherwise the output is the header (each line prefixed with the
`np.savetxt` comment marker) followed by the formatted data rows. The
`Except.ok` payload is the entire file content — an error produces none. -/
def file_writer (m : CrystalMap) (iqName ciName ssName fitName : Option String) :
    Except String (List String) :=
  if 2 < m.ndim then
    Except.error "Writing a 3D dataset to an ANG file is not supported"
  else
    match writerCompute m iqName ciName ssName fitName with
    | Except.error e => Except.error e
    | Except.ok rows =>
      Except.ok ((linesOf (getAngHeader m)).map (fun l => "# " ++ l) ++
        rows.map (String.intercalate "  "))

/-- C8: writing a dataset with more than 2 dimensions fails with the
dimensionality validation error; the error branch carries no output
content, so nothing is written (`file_writer` produces output only through
`Except.ok`). -/
theorem writer_ndim_guard (m : CrystalMap) (iqName ciName ssName fitName : Option String)
    (h : 2 < m.ndim) :
    file_writer m iqName ciName ssName fitName =
      Except.error "Writing a 3D dataset to an ANG file is not supported" := by
  unfold file_writer
  rw [if_pos h]

/-- C8 witness: a 3-dimensional map is rejected. -/
theorem writer_ndim_guard_witness :
    ((2 : Nat) < (CrystalMap.mk 3 [1, 1, 1] 1 1 [] [] [(0, 0, 0)] [0]).ndim) ∧
    file_writer (CrystalMap.mk 3 [1, 1, 1] 1 1 [] [] [(0, 0, 0)] [0])
        none none none none =
      Except.error "Writing a 3D dataset to an ANG file is not supported" :=
  ⟨by decide,
    writer_ndim_guard (CrystalMap.mk 3 [1, 1, 1] 1 1 [] [] [(0, 0, 0)] [0])
      none none none none (by decide)⟩

/-- C9 (amended): each data row contains, in order, the 3 Euler angles at
fixed width 8, x and y at dynamic width, image quality, confidence index at
dynamic width, the phase id as a plain integer, then the SEM signal, then
the pattern fit at dynamic width — SEM signal precedes pattern fit, the
reverse of the claimed order — and each dynamic column's width is computed
from that same column's maximum value (the two width variables for the last
columns are computed from each other's named column, which makes every
printed column use its own maximum). -/
theorem writer_row_layout (m : CrystalMap)
    (iqName ciName ssName fitName : Option String)
    (rows : List (List String)) (iqCol ciCol ssCol fitCol : List ℚ)
    (h : writerCompute m iqName ciName ssName fitName = Except.ok rows)
    (hiq : resolveColumn m iqName iqAliases
      ((getNrowsNcolsStepSizes m).nrows * (getNrowsNcolsStepSizes m).ncols) = some iqCol)
    (hci : resolveColumn m ciName ciAliases
      ((getNrowsNcolsStepSizes m).nrows * (getNrowsNcolsStepSizes m).ncols) = some ciCol)
    (hss : resolveColumn m ssName ssAliases
      ((getNrowsNcolsStepSizes m).nrows * (getNrowsNcolsStepSizes m).ncols) = some ssCol)
    (hfit : resolveColumn m fitName fitAliases
      ((getNrowsNcolsStepSizes m).nrows * (getNrowsNcolsStepSizes m).ncols) = some fitCol) :
    ∀ i, i < (getNrowsNcolsStepSizes m).nrows * (getNrowsNcolsStepSizes m).ncols →
      rows[i]? = some
        [fmtFixed 8 5 (nround 5 (m.eulers.getD i (0, 0, 0)).1),
         fmtFixed 8 5 (nround 5 (m.eulers.getD i (0, 0, 0)).2.1),
         fmtFixed 8 5 (nround 5 (m.eulers.getD i (0, 0, 0)).2.2),
         fmtFixed (getColumnWidth (qmax (xCoords (getNrowsNcolsStepSizes m))) 5) 5
           ((xCoords (getNrowsNcolsStepSizes m)).getD i 0),
         fmtFixed (getColumnWidth (qmax (yCoords (getNrowsNcolsStepSizes m))) 5) 5
           ((yCoords (getNrowsNcolsStepSizes m)).getD i 0),
         fmtFixed (getColumnWidth (qmax iqCol) 5) 5 (iqCol.getD i 0),
         fmtFixed (getColumnWidth (qmax ciCol) 5) 5 (ciCol.getD i 0),
         fmtInt (m.phase_id.getD i 0),
         fmtFixed (getColumnWidth (qmax ssCol) 5) 5 (ssCol.getD i 0),
         fmtFixed (getColumnWidth (qmax fitCol) 5) 5 (fitCol.getD i 0)] := by
  unfold writerCompute at h
  by_cases h0 : (getNrowsNcolsStepSizes m).nrows * (getNrowsNcolsStepSizes m).ncols = 0
  · rw [if_pos h0] at h; cases h
  · rw [if_neg h0] at h
    by_cases h1 : m.eulers.length ≠
        (getNrowsNcolsStepSizes m).nrows * (getNrowsNcolsStepSizes m).ncols
    · rw [if_pos h1] at h; cases h
    · rw [if_neg h1] at h
      simp only [hiq, hci, hss, hfit] at h
      by_cases h2 : m.phase_id.length ≠
          (getNrowsNcolsStepSizes m).nrows * (getNrowsNcolsStepSizes m).ncols
      · rw [if_pos h2] at h; cases h
      · rw [if_neg h2] at h
        obtain rfl := Except.ok.inj h
        intro i hi
        rw [List.getElem?_map, List.getElem?_range hi]
        rfl

/-- Equality of `Except` results is decidable (used to evaluate writer
outcomes on concrete maps). -/
instance {e : Type} {a : Type} [DecidableEq e] [DecidableEq a] :
    DecidableEq (Except e a) := fun x y =>
  match x, y with
  | Except.ok u, Except.ok v =>
    if h : u = v then isTrue (by rw [h])
    else isFalse (by intro hh; cases hh; exact h rfl)
  | Except.error u, Except.error v =>
    if h : u = v then isTrue (by rw [h])
    else isFalse (by intro hh; cases hh; exact h rfl)
  | Except.ok _, Except.error _ => isFalse (by intro hh; cases hh)
  | Except.error _, Except.ok _ => isFalse (by intro hh; cases hh)

/-- C9 witness: a 1×1 map with `ss = 1` and `fit = 2` properties; the single
row follows the amended layout (SEM signal before pattern fit, widths from
each column's own maximum). -/
theorem writer_row_layout_witness :
    (writerCompute (CrystalMap.mk 2 [1, 1] 1 1 []
        [("ss", [1]), ("fit", [2])] [(0, 0, 0)] [0]) none none none none =
      Except.ok [[" 0.00000", " 0.00000", " 0.00000", "0.00000", "0.00000",
        "0.00000", "0.00000", "0", "1.00000", "2.00000"]]) ∧
    (∀ i, i < (getNrowsNcolsStepSizes (CrystalMap.mk 2 [1, 1] 1 1 []
          [("ss", [1]), ("fit", [2])] [(0, 0, 0)] [0])).nrows *
        (getNrowsNcolsStepSizes (CrystalMap.mk 2 [1, 1] 1 1 []
          [("ss", [1]), ("fit", [2])] [(0, 0, 0)] [0])).ncols →
      ([[" 0.00000", " 0.00000", " 0.00000", "0.00000", "0.00000",
        "0.00000", "0.00000", "0", "1.00000", "2.00000"]] :
          List (List String))[i]? = some
        [fmtFixed 8 5 (nround 5 (((CrystalMap.mk 2 [1, 1] 1 1 []
            [("ss", [1]), ("fit", [2])] [(0, 0, 0)] [0]).eulers.getD i (0, 0, 0)).1)),
         fmtFixed 8 5 (nround 5 (((CrystalMap.mk 2 [1, 1] 1 1 []
            [("ss", [1]), ("fit", [2])] [(0, 0, 0)] [0]).eulers.getD i (0, 0, 0)).2.1)),
         fmtFixed 8 5 (nround 5 (((CrystalMap.mk 2 [1, 1] 1 1 []
            [("ss", [1]), ("fit", [2])] [(0, 0, 0)] [0]).eulers.getD i (0, 0, 0)).2.2)),
         fmtFixed (getColumnWidth (qmax (xCoords (getNrowsNcolsStepSizes
            (CrystalMap.mk 2 [1, 1] 1 1 [] [("ss", [1]), ("fit", [2])]
              [(0, 0, 0)] [0])))) 5) 5
           ((xCoords (getNrowsNcolsStepSizes (CrystalMap.mk 2 [1, 1] 1 1 []
             [("ss", [1]), ("fit", [2])] [(0, 0, 0)] [0]))).getD i 0),
         fmtFixed (getColumnWidth (qmax (yCoords (getNrowsNcolsStepSizes
            (CrystalMap.mk 2 [1, 1] 1 1 [] [("ss", [1]), ("fit", [2])]
              [(0, 0, 0)] [0])))) 5) 5
           ((yCoords (getNrowsNcolsStepSizes (CrystalMap.mk 2 [1, 1] 1 1 []
             [("ss", [1]), ("fit", [2])] [(0, 0, 0)] [0]))).getD i 0),
         fmtFixed (getColumnWidth (qmax [(0 : ℚ)]) 5) 5 (([(0 : ℚ)]).getD i 0),
         fmtFixed (getColumnWidth (qmax [(0 : ℚ)]) 5) 5 (([(0 : ℚ)]).getD i 0),
         fmtInt ((CrystalMap.mk 2 [1, 1] 1 1 [] [("ss", [1]), ("fit", [2])]
            [(0, 0, 0)] [0]).phase_id.getD i 0),
         fmtFixed (getColumnWidth (qmax [(1 : ℚ)]) 5) 5 (([(1 : ℚ)]).getD i 0),
         fmtFixed (getColumnWidth (qmax [(2 : ℚ)]) 5) 5 (([(2 : ℚ)]).getD i 0)]) :=
  ⟨by decide,
    writer_row_layout (CrystalMap.mk 2 [1, 1] 1 1 []
        [("ss", [1]), ("fit", [2])] [(0, 0, 0)] [0]) none none none none
      [[" 0.00000", " 0.00000", " 0.00000", "0.00000", "0.00000",
        "0.00000", "0.00000", "0", "1.00000", "2.00000"]]
      [0] [0] [1] [2]
      (by decide) (by decide) (by decide) (by decide) (by decide)⟩

/-- C9 counterexample: with SEM signal `1` and pattern fit `2`, the 9th
output field (after the phase id) is `"1.00000"` — the SEM signal — while
the claim's order predicts the pattern fit `"2.00000"` there; the pattern
fit is in fact the 10th field. -/
theorem writer_row_order_cex :
    writerCompute (CrystalMap.mk 2 [1, 1] 1 1 []
        [("ss", [1]), ("fit", [2])] [(0, 0, 0)] [0]) none none none none =
      Except.ok [[" 0.00000", " 0.00000", " 0.00000", "0.00000", "0.00000",
        "0.00000", "0.00000", "0", "1.00000", "2.00000"]] ∧
    fmtFixed (getColumnWidth (qmax [(2 : ℚ)]) 5) 5 (nround 5 2) = "2.00000" ∧
    ("1.00000" : String) ≠ "2.00000" := by decide

theorem strData_append (a b : String) : (a ++ b).data = a.data ++ b.data := rfl

theorem joinStr_append (xs ys : List String) :
    joinStr (xs ++ ys) = joinStr xs ++ joinStr ys := by
  induction xs with
  | nil =>
    show joinStr ys = "" ++ joinStr ys
    apply String.ext
    simp [strData_append]
  | cons s rest ih =>
    show s ++ joinStr (rest ++ ys) = (s ++ joinStr rest) ++ joinStr ys
    rw [ih]
    apply String.ext
    simp [strData_append]

theorem digitChar_ne_newline (d : Nat) : digitChar d ≠ '\n' := by
  unfold digitChar
  split <;> decide

theorem natToDigits_ne_newline (fuel n : Nat) : ∀ c ∈ natToDigits fuel n, c ≠ '\n' := by
  induction fuel generalizing n with
  | zero => intro c hc; cases hc
  | succ f ih =>
    intro c hc
    unfold natToDigits at hc
    by_cases hn : n < 10
    · rw [if_pos hn] at hc
      rcases List.mem_singleton.mp hc with rfl
      exact digitChar_ne_newline n
    · rw [if_neg hn] at hc
      rcases List.mem_append.mp hc with h | h
      · exact ih (n / 10) c h
      · rcases List.mem_singleton.mp h with rfl
        exact digitChar_ne_newline (n % 10)

theorem intToStr_ne_newline (i : Int) : ∀ c ∈ (intToStr i).data, c ≠ '\n' := by
  cases i with
  | ofNat n => exact natToDigits_ne_newline (n + 1) n
  | negSucc n =>
    intro c hc
    rcases List.mem_cons.mp hc with rfl | h
    · decide
    · exact natToDigits_ne_newline (n + 2) (n + 1) c h

theorem splitOnChar_append (sep : Char) (xs ys : List Char)
    (h : ∀ c ∈ xs, c ≠ sep) :
    splitOnChar sep (xs ++ sep :: ys) = xs :: splitOnChar sep ys := by
  induction xs with
  | nil => simp [splitOnChar]
  | cons c cs ih =>
    have hc : c ≠ sep := h c (List.mem_cons_self c cs)
    rw [List.cons_append]
    show (if c = sep then _ else _) = _
    rw [if_neg hc, ih (fun a ha => h a (List.mem_cons_of_mem c ha))]

/-- C10: every per-phase block of the generated output header carries the
same string on its Formula line as on its MaterialName line — the phase's
name — so a formula distinct from the phase name is never emitted
(the block interpolates `phase.name` into both lines and has no access to a
formula at all). -/
theorem formula_line_carries_name (m : CrystalMap) (pid : Int) (p : PhaseModel)
    (hmem : (pid, p) ∈ m.phases)
    (hname : ∀ c ∈ p.name.data, c ≠ '\n') :
    (∃ s t, getAngHeader m = s ++ phaseBlock pid p ++ t) ∧
    (linesOf (phaseBlock pid p))[1]? = some ("MaterialName    " ++ p.name) ∧
    (linesOf (phaseBlock pid p))[2]? = some ("Formula    " ++ p.name) := by
  have hA : ∀ c ∈ ("Phase " ++ intToStr pid).data, c ≠ '\n' := by
    intro c hc
    rw [strData_append] at hc
    rcases List.mem_append.mp hc with h | h
    · exact (by decide : ∀ c ∈ ("Phase " : String).data, c ≠ '\n') c h
    · exact intToStr_ne_newline pid c h
  have hB : ∀ c ∈ ("MaterialName    " ++ p.name).data, c ≠ '\n' := by
    intro c hc
    rw [strData_append] at hc
    rcases List.mem_append.mp hc with h | h
    · exact (by decide : ∀ c ∈ ("MaterialName    " : String).data, c ≠ '\n') c h
    · exact hname c h
  have hC : ∀ c ∈ ("Formula    " ++ p.name).data, c ≠ '\n' := by
    intro c hc
    rw [strData_append] at hc
    rcases List.mem_append.mp hc with h | h
    · exact (by decide : ∀ c ∈ ("Formula    " : String).data, c ≠ '\n') c h
    · exact hname c h
  have hdata : (phaseBlock pid p).data =
      ("Phase " ++ intToStr pid).data ++ '\n' ::
        (("MaterialName    " ++ p.name).data ++ '\n' ::
          (("Formula    " ++ p.name).data ++ '\n' ::
            ("Info\n" ++ "Symmetry    " ++ p.point_group ++ "\n" ++
              "LatticeConstants    " ++ latticeStr p ++ "\n" ++
              "NumberFamilies    0\n").data)) := by
    simp [phaseBlock, strData_append, List.append_assoc,
      (show ("\n" : String).data = ['\n'] from rfl)]
  have hsplit : splitOnChar '\n' (phaseBlock pid p).data =
      ("Phase " ++ intToStr pid).data ::
        ("MaterialName    " ++ p.name).data ::
          ("Formula    " ++ p.name).data ::
            splitOnChar '\n' ("Info\n" ++ "Symmetry    " ++ p.point_group ++ "\n" ++
              "LatticeConstants    " ++ latticeStr p ++ "\n" ++
              "NumberFamilies    0\n").data := by
    rw [hdata, splitOnChar_append _ _ _ hA, splitOnChar_append _ _ _ hB,
      splitOnChar_append _ _ _ hC]
  refine ⟨?_, ?_, ?_⟩
  · obtain ⟨l1, l2, hl⟩ := List.append_of_mem hmem
    refine ⟨headerPreamble ++ joinStr (l1.map (fun ip => phaseBlock ip.1 ip.2)),
      joinStr (l2.map (fun ip => phaseBlock ip.1 ip.2)) ++ headerMapInfo m, ?_⟩
    unfold getAngHeader
    rw [hl, List.map_append, List.map_cons, joinStr_append]
    apply String.ext
    simp [strData_append, joinStr, List.append_assoc]
  · unfold linesOf
    rw [show (phaseBlock pid p).toList = (phaseBlock pid p).data from rfl, hsplit]
    rfl
  · unfold linesOf
    rw [show (phaseBlock pid p).toList = (phaseBlock pid p).data from rfl, hsplit]
    rfl

/-- C10 witness: a concrete map with one phase named `Ni`; both the
MaterialName and Formula lines of its block carry `Ni`. -/
theorem formula_line_carries_name_witness :
    (((1 : Int), PhaseModel.mk "Ni" "432" [7/2, 7/2, 7/2, 90, 90, 90]) ∈
      (CrystalMap.mk 2 [1, 1] 1 1
        [((1 : Int), PhaseModel.mk "Ni" "432" [7/2, 7/2, 7/2, 90, 90, 90])]
        [] [(0, 0, 0)] [0]).phases) ∧
    ((∃ s t, getAngHeader (CrystalMap.mk 2 [1, 1] 1 1
        [((1 : Int), PhaseModel.mk "Ni" "432" [7/2, 7/2, 7/2, 90, 90, 90])]
        [] [(0, 0, 0)] [0]) =
        s ++ phaseBlock 1 (PhaseModel.mk "Ni" "432" [7/2, 7/2, 7/2, 90, 90, 90]) ++ t) ∧
    (linesOf (phaseBlock 1 (PhaseModel.mk "Ni" "432" [7/2, 7/2, 7/2, 90, 90, 90])))[1]? =
      some ("MaterialName    " ++ "Ni") ∧
    (linesOf (phaseBlock 1 (PhaseModel.mk "Ni" "432" [7/2, 7/2, 7/2, 90, 90, 90])))[2]? =
      some ("Formula    " ++ "Ni")) :=
  ⟨by decide,
    formula_line_carries_name
      (CrystalMap.mk 2 [1, 1] 1 1
        [((1 : Int), PhaseModel.mk "Ni" "432" [7/2, 7/2, 7/2, 90, 90, 90])]
        [] [(0, 0, 0)] [0])
      1 (PhaseModel.mk "Ni" "432" [7/2, 7/2, 7/2, 90, 90, 90])
      (by decide) (by decide)⟩
